import Mathlib

/-
Shallow embedding of src/parse-stable-abi.py.

The script reads standard input line by line.  A line starting with the
character prefix "function" sets is_data to False, a line starting with
"data" sets is_data to True, and any other line is skipped.  For a matched
line the running count is incremented, then the second whitespace token of
the line is taken as the symbol name (raising IndexError when the line has
fewer than two tokens), and one output line is printed: the bare name for a
function, or the name followed by " DATA" for a data symbol.  Before the
loop two fixed header lines are printed; after the loop the script checks
count >= 859 and terminates abnormally when the check fails.

Lines of standard input are modelled as a list of strings (without their
trailing newline, which is whitespace and affects neither the prefix test
nor the tokenization).  The interpreter state carries the running count and
the list of lines written to standard output so far.  A line that raises
IndexError aborts the run; standard output written before the abort is kept,
matching the interpreter flushing it at abnormal exit.
-/

/-- The whitespace characters recognised by the str.split() method of the
Python str type (ASCII subset; the manifest is ASCII). -/
def isPythonSpace (c : Char) : Bool :=
  c = ' ' || c = '\t' || c = '\n' || c = '\r' || c = '\x0b' || c = '\x0c'

/-- Accumulator-style tokenizer: splits a character list at runs of
whitespace, discarding empty pieces, as str.split() with no argument does. -/
def pyTokensAux : List Char → List Char → List String
  | [], [] => []
  | [], acc => [String.mk acc.reverse]
  | c :: cs, acc =>
    if isPythonSpace c then
      match acc with
      | [] => pyTokensAux cs []
      | _ => String.mk acc.reverse :: pyTokensAux cs []
    else
      pyTokensAux cs (c :: acc)

/-- line.split() of the Python str type. -/
def pyTokens (line : String) : List String :=
  pyTokensAux line.data []

/-- line.startswith(pre) of the Python str type: a character-for-character
prefix test anchored at position 0. -/
def pyStartsWith (line pre : String) : Bool :=
  pre.data.isPrefixOf line.data

/-- The dispatch at lines 12-17 of the script: some false is is_data = False
(the "function" branch), some true is is_data = True (the "data" branch),
none is the continue branch. -/
def lineIsData (line : String) : Option Bool :=
  if pyStartsWith line "function" then some false
  else if pyStartsWith line "data" then some true
  else none

/-- The first whitespace-delimited token of a line, when one exists. -/
def firstToken (line : String) : Option String :=
  (pyTokens line).head?

/-- Interpreter state: the running count and the lines written to standard
output so far. -/
structure RunState where
  count : Nat
  output : List String
deriving DecidableEq

/-- Body of the loop over one line, after the dispatch value and the token
list of the line are known.  The count is incremented before the name is
looked up, exactly as count += 1 precedes line.split()[1] in the script, so
an IndexError (fewer than two tokens) leaves the incremented count behind. -/
def stepAux (s : RunState) : Option Bool → List String → Except RunState RunState
  | none, _ => Except.ok s
  | some is_data, _ :: name :: _ =>
    Except.ok ⟨s.count + 1, s.output ++ [if is_data then name ++ " DATA" else name]⟩
  | some _, _ => Except.error ⟨s.count + 1, s.output⟩

/-- Processing of a single input line. -/
def stepLine (s : RunState) (line : String) : Except RunState RunState :=
  stepAux s (lineIsData line) (pyTokens line)

/-- The loop over standard input: processes lines in order, stopping at the
first line that raises. -/
def runLines : RunState → List String → Except RunState RunState
  | s, [] => Except.ok s
  | s, l :: ls =>
    match stepLine s l with
    | Except.ok s2 => runLines s2 ls
    | Except.error s2 => Except.error s2

/-- The two fixed header lines printed before the loop. -/
def headerLines : List String :=
  ["LIBRARY python3.dll", "EXPORTS"]

/-- State at loop entry: count = 0, headers already printed. -/
def initState : RunState :=
  ⟨0, headerLines⟩

/-- The state carried by either outcome of the loop. -/
def exceptState : Except RunState RunState → RunState
  | Except.ok s => s
  | Except.error s => s

/-- The whole script on a given standard input: the lines written to
standard output, and whether the process exits with status 0.  A normal
loop exit reaches the assertion, which succeeds exactly when count >= 859;
an IndexError aborts with a non-zero status, keeping the output written so
far. -/
def runProgram (input : List String) : List String × Bool :=
  match runLines initState input with
  | Except.ok s => (s.output, decide (859 ≤ s.count))
  | Except.error s => (s.output, false)

/-- The output line a given input line contributes, when it contributes one:
none for a skipped line and for a line that raises. -/
def emitAux : Option Bool → List String → Option String
  | none, _ => none
  | some is_data, _ :: name :: _ => some (if is_data then name ++ " DATA" else name)
  | some _, _ => none

/-- emittedLine line is the symbol line the script prints for this input
line, when it prints one. -/
def emittedLine (line : String) : Option String :=
  emitAux (lineIsData line) (pyTokens line)

/-- A line is well formed when it cannot raise: either it is skipped, or it
has at least two whitespace tokens so that line.split()[1] is defined. -/
def wellFormedLine (line : String) : Bool :=
  (lineIsData line).isNone || decide (2 ≤ (pyTokens line).length)

/-- Number of symbol entries the script emits for an input whose lines are
all well formed. -/
def numEntries (input : List String) : Nat :=
  (input.filterMap emittedLine).length

/-! ### Helper lemmas about single-line processing -/

theorem stepLine_skip (s : RunState) (l : String) (h : lineIsData l = none) :
    stepLine s l = Except.ok s := by
  unfold stepLine
  rw [h]
  cases hT : pyTokens l with
  | nil => rfl
  | cons a as => cases as with | nil => rfl | cons c cs => rfl

theorem stepLine_emit (s : RunState) (l : String) (b : Bool) (t0 name : String)
    (rest : List String) (hk : lineIsData l = some b)
    (hT : pyTokens l = t0 :: name :: rest) :
    stepLine s l = Except.ok ⟨s.count + 1, s.output ++ [if b then name ++ " DATA" else name]⟩ := by
  unfold stepLine
  rw [hk, hT]
  rfl

theorem stepLine_raise (s : RunState) (l : String) (b : Bool)
    (hk : lineIsData l = some b) (hT : (pyTokens l).length < 2) :
    stepLine s l = Except.error ⟨s.count + 1, s.output⟩ := by
  unfold stepLine
  rw [hk]
  match h : pyTokens l with
  | [] => rfl
  | [t0] => rfl
  | t0 :: t1 :: r => rw [h] at hT; simp only [List.length_cons] at hT; omega

theorem emittedLine_skip (l : String) (h : lineIsData l = none) :
    emittedLine l = none := by
  unfold emittedLine
  rw [h]
  cases hT : pyTokens l with
  | nil => rfl
  | cons a as => cases as with | nil => rfl | cons c cs => rfl

theorem emittedLine_emit (l : String) (b : Bool) (t0 name : String)
    (rest : List String) (hk : lineIsData l = some b)
    (hT : pyTokens l = t0 :: name :: rest) :
    emittedLine l = some (if b then name ++ " DATA" else name) := by
  unfold emittedLine
  rw [hk, hT]
  rfl

/-! ### The loop on well-formed input -/

theorem runLines_ok_of_wf (input : List String) :
    ∀ s : RunState, (∀ l ∈ input, wellFormedLine l = true) →
    runLines s input =
      Except.ok ⟨s.count + (input.filterMap emittedLine).length,
                 s.output ++ input.filterMap emittedLine⟩ := by
  induction input with
  | nil => intro s _; simp [runLines]
  | cons l ls ih =>
    intro s h
    have hl : wellFormedLine l = true := h l (List.mem_cons_self l ls)
    have hls : ∀ x ∈ ls, wellFormedLine x = true :=
      fun x hx => h x (List.mem_cons_of_mem l hx)
    cases hk : lineIsData l with
    | none =>
      have hstep := stepLine_skip s l hk
      have hem := emittedLine_skip l hk
      simp only [runLines, hstep, List.filterMap_cons, hem, ih s hls]
    | some b =>
      have hlen : 2 ≤ (pyTokens l).length := by
        unfold wellFormedLine at hl
        rw [hk] at hl
        simpa using hl
      match hT : pyTokens l with
      | [] => rw [hT] at hlen; simp at hlen
      | [t0] => rw [hT] at hlen; simp at hlen
      | t0 :: name :: rest =>
        have hstep := stepLine_emit s l b t0 name rest hk hT
        have hem := emittedLine_emit l b t0 name rest hk hT
        simp only [runLines, hstep, List.filterMap_cons, hem,
          ih ⟨s.count + 1, s.output ++ [if b then name ++ " DATA" else name]⟩ hls]
        simp only [Except.ok.injEq, RunState.mk.injEq, List.length_cons]
        refine ⟨by omega, by simp⟩

/-! ### Further loop lemmas -/

theorem runLines_append_ok (xs ys : List String) :
    ∀ s s2 : RunState, runLines s xs = Except.ok s2 →
    runLines s (xs ++ ys) = runLines s2 ys := by
  induction xs with
  | nil =>
    intro s s2 h
    simp only [runLines] at h
    cases h
    rfl
  | cons l ls ih =>
    intro s s2 h
    cases hst : stepLine s l with
    | ok s3 =>
      simp only [runLines, hst] at h
      simp only [List.cons_append, runLines, hst]
      exact ih s3 s2 h
    | error s3 =>
      rw [runLines, hst] at h
      exact Except.noConfusion h

theorem stepLine_output_extends (s : RunState) (l : String) :
    ∃ r, (exceptState (stepLine s l)).output = s.output ++ r := by
  unfold stepLine
  cases lineIsData l with
  | none =>
    refine ⟨[], ?_⟩
    cases pyTokens l with
    | nil => simp [stepAux, exceptState]
    | cons a as => cases as with
      | nil => simp [stepAux, exceptState]
      | cons c cs => simp [stepAux, exceptState]
  | some b =>
    cases pyTokens l with
    | nil => exact ⟨[], by simp [stepAux, exceptState]⟩
    | cons a as => cases as with
      | nil => exact ⟨[], by simp [stepAux, exceptState]⟩
      | cons c cs =>
        exact ⟨[if b then c ++ " DATA" else c], by simp [stepAux, exceptState]⟩

theorem runLines_output_extends (input : List String) :
    ∀ s : RunState, ∃ r, (exceptState (runLines s input)).output = s.output ++ r := by
  induction input with
  | nil => intro s; exact ⟨[], by simp [runLines, exceptState]⟩
  | cons l ls ih =>
    intro s
    cases hst : stepLine s l with
    | ok s2 =>
      obtain ⟨r1, hr1⟩ := stepLine_output_extends s l
      rw [hst] at hr1
      obtain ⟨r2, hr2⟩ := ih s2
      refine ⟨r1 ++ r2, ?_⟩
      simp only [runLines, hst, hr2]
      rw [show (exceptState (Except.ok s2)).output = s2.output from rfl] at hr1
      rw [hr1, List.append_assoc]
    | error s2 =>
      obtain ⟨r1, hr1⟩ := stepLine_output_extends s l
      rw [hst] at hr1
      refine ⟨r1, ?_⟩
      simp only [runLines, hst]
      exact hr1

theorem runProgram_fst (input : List String) :
    (runProgram input).1 = (exceptState (runLines initState input)).output := by
  unfold runProgram
  cases h : runLines initState input with
  | ok s => simp [exceptState]
  | error s => simp [exceptState]

/-! ### Concrete evaluation helpers for the threshold counterexample -/

theorem wellFormed_function_f : wellFormedLine "function f" = true := by decide

theorem emittedLine_function_f : emittedLine "function f" = some "f" := by decide

theorem wf_replicate (n : Nat) :
    ∀ l ∈ List.replicate n "function f", wellFormedLine l = true := by
  intro l hl
  rw [List.eq_of_mem_replicate hl]
  exact wellFormed_function_f

theorem filterMap_emitted_replicate (n : Nat) :
    (List.replicate n "function f").filterMap emittedLine = List.replicate n "f" := by
  induction n with
  | zero => rfl
  | succ n ih =>
    rw [List.replicate_succ, List.replicate_succ, List.filterMap_cons,
      emittedLine_function_f, ih]

theorem runProgram_of_wf (input : List String)
    (hwf : ∀ l ∈ input, wellFormedLine l = true) :
    runProgram input =
      (headerLines ++ input.filterMap emittedLine, decide (859 ≤ numEntries input)) := by
  unfold runProgram
  rw [runLines_ok_of_wf input initState hwf]
  simp [initState, numEntries]

theorem append_DATA_ne (name : String) : name ≠ name ++ " DATA" := by
  intro h
  have hlen := congrArg String.length h
  rw [String.length_append, show (" DATA" : String).length = 5 from rfl] at hlen
  omega

/-! ### Claims -/

/-- C1: a line that introduces a Symbol Entry (its prefix selects a kind
and it has a second whitespace token, the symbol name) produces exactly one
output line and one count increment: the bare symbol name for a Function
entry (is_data = false), and the name followed by a single space and the
literal DATA for a Data entry (is_data = true); the emitted line carries
the DATA suffix iff the kind is Data. -/
theorem C1_entry_emits_one_line (s : RunState) (l : String) (b : Bool)
    (t0 name : String) (rest : List String)
    (hk : lineIsData l = some b) (hT : pyTokens l = t0 :: name :: rest) :
    stepLine s l =
      Except.ok ⟨s.count + 1, s.output ++ [if b then name ++ " DATA" else name]⟩ ∧
    ((if b then name ++ " DATA" else name) = name ++ " DATA" ↔ b = true) := by
  refine ⟨stepLine_emit s l b t0 name rest hk hT, ?_⟩
  cases b with
  | true => simp
  | false => simp [append_DATA_ne name]

/-- C1 witness: the Data line "data Foo" appends exactly the line
"Foo DATA" and increments the count from 0 to 1. -/
theorem C1_witness :
    stepLine initState "data Foo" =
      Except.ok ⟨initState.count + 1,
        initState.output ++ [if true then "Foo" ++ " DATA" else "Foo"]⟩ ∧
    ((if true then "Foo" ++ " DATA" else "Foo") = "Foo" ++ " DATA" ↔ true = true) :=
  C1_entry_emits_one_line initState "data Foo" true "data" "Foo" []
    (by decide) (by decide)

/-- C2 counterexample: the line " function f" has "function" as its first
whitespace-delimited token, yet it introduces no Function entry, because
the dispatch is a position-0 prefix test and the leading space defeats it;
so entry introduction is not equivalent to the first token being exactly
"function". -/
theorem C2_counterexample :
    ¬ ((lineIsData " function f" = some false) ↔
        (firstToken " function f" = some "function")) := by
  decide

/-- C2 amended: a line introduces a Function entry iff it begins, at
position 0, with the character prefix "function" (so "functionx y" also
qualifies while " function f" does not); a Data entry iff it does not begin
with "function" but begins with "data"; any line beginning with neither
prefix is silently skipped, producing no entry, no output line and no
error. -/
theorem C2_prefix_dispatch (s : RunState) (l : String) :
    (lineIsData l = some false ↔ pyStartsWith l "function" = true) ∧
    (lineIsData l = some true ↔
      (pyStartsWith l "function" = false ∧ pyStartsWith l "data" = true)) ∧
    (lineIsData l = none ↔
      (pyStartsWith l "function" = false ∧ pyStartsWith l "data" = false)) ∧
    (lineIsData l = none → stepLine s l = Except.ok s ∧ emittedLine l = none) := by
  refine ⟨?_, ?_, ?_, fun h => ⟨stepLine_skip s l h, emittedLine_skip l h⟩⟩ <;>
  · unfold lineIsData
    cases h1 : pyStartsWith l "function" <;> cases h2 : pyStartsWith l "data" <;>
      simp

/-- C2 witness: the dispatch equivalences instantiated at the comment line
"# f", which matches neither prefix and is skipped. -/
theorem C2_witness :
    (lineIsData "# f" = some false ↔ pyStartsWith "# f" "function" = true) ∧
    (lineIsData "# f" = some true ↔
      (pyStartsWith "# f" "function" = false ∧ pyStartsWith "# f" "data" = true)) ∧
    (lineIsData "# f" = none ↔
      (pyStartsWith "# f" "function" = false ∧ pyStartsWith "# f" "data" = false)) ∧
    (lineIsData "# f" = none →
      stepLine initState "# f" = Except.ok initState ∧ emittedLine "# f" = none) :=
  C2_prefix_dispatch initState "# f"

/-- C3 counterexample: on the single-line input "function" the loop itself
raises (IndexError from line.split()[1], the line having no second token)
instead of skipping the malformed line: processing aborts with an error
outcome before the final count check is ever reached, with the count
already incremented to 1 and only the two headers written. -/
theorem C3_counterexample :
    runLines initState ["function"] = Except.error ⟨1, headerLines⟩ := by
  rfl

/-- C3 amended: a line matching neither entry prefix never causes a
failure - it is skipped with the state unchanged; but a line whose prefix
selects a kind while it has fewer than two whitespace tokens raises
(IndexError) and aborts the run; abnormal termination can therefore come
from such a line as well as from the final count threshold. -/
theorem C3_raise_characterisation (s : RunState) (l : String) :
    (lineIsData l = none → stepLine s l = Except.ok s) ∧
    ((∃ e, stepLine s l = Except.error e) ↔
      ((lineIsData l).isSome = true ∧ (pyTokens l).length < 2)) := by
  constructor
  · exact stepLine_skip s l
  · constructor
    · rintro ⟨e, he⟩
      cases hk : lineIsData l with
      | none =>
        rw [stepLine_skip s l hk] at he
        exact Except.noConfusion he
      | some b =>
        refine ⟨by simp [hk], ?_⟩
        by_contra hlen
        push_neg at hlen
        match hT : pyTokens l with
        | [] => rw [hT] at hlen; simp at hlen
        | [t0] => rw [hT] at hlen; simp at hlen
        | t0 :: t1 :: r =>
          rw [stepLine_emit s l b t0 t1 r hk hT] at he
          exact Except.noConfusion he
    · rintro ⟨hk, hlen⟩
      cases hkk : lineIsData l with
      | none => rw [hkk] at hk; simp at hk
      | some b => exact ⟨_, stepLine_raise s l b hkk hlen⟩

/-- C3 witness: the characterisation instantiated at the bare line
"function", which matches a prefix but has a single token, hence raises. -/
theorem C3_witness :
    (lineIsData "function" = none →
      stepLine initState "function" = Except.ok initState) ∧
    ((∃ e, stepLine initState "function" = Except.error e) ↔
      ((lineIsData "function").isSome = true ∧ (pyTokens "function").length < 2)) :=
  C3_raise_characterisation initState "function"

theorem runProgram_error (input : List String) (e : RunState)
    (h : runLines initState input = Except.error e) :
    runProgram input = (e.output, false) := by
  unfold runProgram
  rw [h]

set_option maxRecDepth 8000 in
/-- C4 counterexample: on 859 well-formed function lines followed by a bare
"function" line, 859 symbol entries have been emitted (the output holds the
two headers plus 859 symbol lines), yet the process exits non-zero because
the last line raises IndexError; so exit status 0 is not equivalent to at
least 859 emitted entries. -/
theorem C4_counterexample :
    859 ≤ (runProgram (List.replicate 859 "function f" ++ ["function"])).1.length - 2 ∧
    (runProgram (List.replicate 859 "function f" ++ ["function"])).2 = false := by
  have h1 : runLines initState (List.replicate 859 "function f") =
      Except.ok ⟨859, headerLines ++ List.replicate 859 "f"⟩ := by
    rw [runLines_ok_of_wf _ initState (wf_replicate 859), filterMap_emitted_replicate,
      List.length_replicate]
    rfl
  have hstep : stepLine (⟨859, headerLines ++ List.replicate 859 "f"⟩ : RunState)
      "function" = Except.error ⟨860, headerLines ++ List.replicate 859 "f"⟩ :=
    stepLine_raise _ "function" false (by decide) (by decide)
  have h3 : runLines (⟨859, headerLines ++ List.replicate 859 "f"⟩ : RunState)
      ["function"] = Except.error ⟨860, headerLines ++ List.replicate 859 "f"⟩ := by
    rw [runLines, hstep]
  have h4 : runLines initState (List.replicate 859 "function f" ++ ["function"]) =
      Except.error ⟨860, headerLines ++ List.replicate 859 "f"⟩ :=
    (runLines_append_ok (List.replicate 859 "function f") ["function"]
      initState _ h1).trans h3
  rw [runProgram_error _ _ h4]
  constructor
  · show 859 ≤ (headerLines ++ List.replicate 859 "f").length - 2
    rw [List.length_append, List.length_replicate]
    show 859 ≤ 2 + 859 - 2
    omega
  · rfl

/-- C4 amended: for inputs on which no line raises (every line matching an
entry prefix has at least two whitespace tokens), the process exits with
status 0 iff the number of emitted entries is at least 859, hence non-zero
iff it is below 859; an input containing a raising line instead aborts with
a non-zero exit no matter how many entries were already emitted. -/
theorem C4_threshold (input : List String) :
    ((∀ l ∈ input, wellFormedLine l = true) →
      ((runProgram input).2 = true ↔ 859 ≤ numEntries input)) ∧
    (∀ e, runLines initState input = Except.error e → (runProgram input).2 = false) := by
  constructor
  · intro hwf
    rw [runProgram_of_wf input hwf]
    simp
  · intro e he
    unfold runProgram
    rw [he]

/-- C4 witness: the threshold equivalence instantiated at the empty input:
zero entries, so the exit status is not 0. -/
theorem C4_witness :
    ((∀ l ∈ ([] : List String), wellFormedLine l = true) →
      ((runProgram []).2 = true ↔ 859 ≤ numEntries [])) ∧
    (∀ e, runLines initState [] = Except.error e → (runProgram []).2 = false) :=
  C4_threshold []

/-- C5: for every input, including the empty one and inputs on which the
run aborts, standard output begins with exactly the line LIBRARY
python3.dll followed by the line EXPORTS: the first two output lines are
fixed and independent of the manifest content. -/
theorem C5_header_invariance (input : List String) :
    (runProgram input).1.take 2 = headerLines := by
  rw [runProgram_fst input]
  obtain ⟨r, hr⟩ := runLines_output_extends input initState
  rw [hr]
  rfl

/-- C6 counterexample: in the input consisting of the line "function x"
twice around a bare "function" line, the entry line "function x" appears
twice and contributes the symbol line "x", yet the output carries "x" only
once: the bare line raises IndexError after the first "x" is printed, so
the rest of the input is never processed and a symbol appearing on two
entry lines does not appear twice in the output. -/
theorem C6_counterexample :
    (["function x", "function", "function x"].count "function x" = 2) ∧
    emittedLine "function x" = some "x" ∧
    (runProgram ["function x", "function", "function x"]).1.count "x" = 1 := by
  decide

/-- C6 amended: on inputs where no line raises, the symbol lines of the
output are exactly the per-line contributions of the input lines, in input
line order (List.filterMap keeps order and multiplicity): no sorting,
filtering or deduplication happens, and a symbol introduced by two entry
lines appears twice, in input order. -/
theorem C6_order_preserved (input : List String)
    (hwf : ∀ l ∈ input, wellFormedLine l = true) :
    (runProgram input).1 = headerLines ++ input.filterMap emittedLine := by
  rw [runProgram_of_wf input hwf]

/-- C6 witness: an input introducing the same symbol twice, around a data
entry, yields the two duplicate lines in input order. -/
theorem C6_witness :
    (runProgram ["function a", "data b", "function a"]).1 =
      headerLines ++ ["function a", "data b", "function a"].filterMap emittedLine :=
  C6_order_preserved ["function a", "data b", "function a"] (by decide)

/-- C7: a line beginning with neither entry prefix (comments, unknown
directives, empty lines) is skipped: the state comes back unchanged, so no
output line is produced for it and the running count is unchanged. -/
theorem C7_tolerant_skip (s : RunState) (l : String)
    (h1 : pyStartsWith l "function" = false)
    (h2 : pyStartsWith l "data" = false) :
    stepLine s l = Except.ok s ∧ emittedLine l = none := by
  have hk : lineIsData l = none := by
    unfold lineIsData
    rw [h1, h2]
    rfl
  exact ⟨stepLine_skip s l hk, emittedLine_skip l hk⟩

/-- C7 witness: the comment line "# comment" is skipped with the state
unchanged. -/
theorem C7_witness :
    stepLine initState "# comment" = Except.ok initState ∧
    emittedLine "# comment" = none :=
  C7_tolerant_skip initState "# comment" (by decide) (by decide)

/-- C8: when no line raises and the count is below the threshold, the
process exits non-zero while its standard output is nevertheless complete:
the two header lines followed by one line per emitted entry; the failing
check suppresses none of the previously written output. -/
theorem C8_output_written_before_abort (input : List String)
    (hwf : ∀ l ∈ input, wellFormedLine l = true)
    (hlt : numEntries input < 859) :
    runProgram input = (headerLines ++ input.filterMap emittedLine, false) ∧
    (headerLines ++ input.filterMap emittedLine).length = 2 + numEntries input := by
  constructor
  · rw [runProgram_of_wf input hwf]
    have hd : decide (859 ≤ numEntries input) = false :=
      decide_eq_false (by omega)
    rw [hd]
  · rw [List.length_append]
    rfl

/-- C8 witness: one function entry, far below the threshold: the run exits
non-zero with the full three-line document already written. -/
theorem C8_witness :
    runProgram ["function f"] =
      (headerLines ++ ["function f"].filterMap emittedLine, false) ∧
    (headerLines ++ ["function f"].filterMap emittedLine).length =
      2 + numEntries ["function f"] :=
  C8_output_written_before_abort ["function f"] (by decide) (by decide)

/-- C9 counterexample: on the input line "function" the count is
incremented before line.split()[1] raises, so at the abort point the
counter is 1 while no symbol line has been emitted (the output beyond the
two headers is empty): during processing the counter can differ from the
number of emitted symbol lines. -/
theorem C9_counterexample :
    ¬ ((exceptState (runLines initState ["function"])).count =
        (exceptState (runLines initState ["function"])).output.length -
          headerLines.length) := by
  decide

/-- C9 amended: after every fully processed line the counter equals the
number of symbol lines emitted so far: on every well-formed input (hence on
every well-formed processed prefix) the loop ends with counter = number of
emitted symbol lines and the total output is that counter plus the two
header lines; only a line that raises leaves the counter one ahead of the
emitted lines, at the abort point. -/
theorem C9_count_invariant (input : List String)
    (hwf : ∀ l ∈ input, wellFormedLine l = true) :
    ((exceptState (runLines initState input)).count = numEntries input ∧
      (exceptState (runLines initState input)).output.length = numEntries input + 2) ∧
    (∀ (s : RunState) (l : String) (b : Bool), lineIsData l = some b →
      (pyTokens l).length < 2 →
      stepLine s l = Except.error ⟨s.count + 1, s.output⟩) := by
  refine ⟨?_, fun s l b => stepLine_raise s l b⟩
  rw [runLines_ok_of_wf input initState hwf]
  constructor
  · show initState.count + (input.filterMap emittedLine).length = numEntries input
    rw [show initState.count = 0 from rfl, Nat.zero_add]
    rfl
  · show (initState.output ++ input.filterMap emittedLine).length = numEntries input + 2
    rw [List.length_append, show initState.output.length = 2 from rfl]
    unfold numEntries
    omega

/-- C9 witness: the invariant instantiated at a two-line input with one
entry line and one comment line. -/
theorem C9_witness :
    ((exceptState (runLines initState ["function f", "# note"])).count =
        numEntries ["function f", "# note"] ∧
      (exceptState (runLines initState ["function f", "# note"])).output.length =
        numEntries ["function f", "# note"] + 2) ∧
    (∀ (s : RunState) (l : String) (b : Bool), lineIsData l = some b →
      (pyTokens l).length < 2 →
      stepLine s l = Except.error ⟨s.count + 1, s.output⟩) :=
  C9_count_invariant ["function f", "# note"] (by decide)

/-- C10: the run is a pure function of the characters on standard input:
two runs on identical input produce identical standard output and an
identical outcome of the final check; nothing else influences the result. -/
theorem C10_deterministic (input1 input2 : List String) (h : input1 = input2) :
    (runProgram input1).1 = (runProgram input2).1 ∧
    (runProgram input1).2 = (runProgram input2).2 := by
  subst h
  exact ⟨rfl, rfl⟩

/-- C10 witness: two runs on the same one-line input agree. -/
theorem C10_witness :
    (runProgram ["function f"]).1 = (runProgram ["function f"]).1 ∧
    (runProgram ["function f"]).2 = (runProgram ["function f"]).2 :=
  C10_deterministic ["function f"] ["function f"] rfl
